import Mathlib

/-!
Shallow embedding of the cf CLI application-start orchestration
(`src/cf/requirements/usage_requirement.go`, package `application`):
`ApplicationStart`, `WatchStaging`, `TailStagingLogs`,
`waitForInstancesToStage`, `waitForOneRunningInstance`,
`fetchInstanceCount` and `instancesDetails`.

Modelling conventions:
- Durations are abstract ticks (Nat).  Wall-clock time advances only at
  `time.Sleep` points, by the sleep amount; `time.Since(start)` is the
  accumulated `elapsed` tick counter.  `Duration.Minutes()` rendering is
  abstracted to the integer `t / 60` (ticks are seconds).
- Repository calls (`appRepo.GetApp`, `appInstancesRepo.GetInstances`,
  the `start` closure, `ShowApp`) are environment functions indexed by
  call number; Go's `(value, error)` pairs become `α × Option String`
  or `Except String α`.
- i18n `T(...)` templates are modelled as their rendered English text
  with the interpolations spliced in; terminal colouring and the quote
  characters around command names are dropped from the rendered text.
- Side effects (UI output, sleeps, repository calls, the two WaitGroup
  handshakes, the stop channel) are recorded in an event trace.
- Loops carry a fuel argument; fuel `timeout + 1` is shown sufficient
  whenever the poll interval is at least one tick.
-/

namespace CFStart

/-- Model of `models.Application`, restricted to the fields the start command reads. -/
structure Application where
  guid : String
  name : String
  state : String
  packageState : String
  stagingFailedReason : String
  command : String
  detectedStartCommand : String
deriving Repr, DecidableEq

/-- Go's zero value `models.Application{}`. -/
def zeroApp : Application := ⟨"", "", "", "", "", "", ""⟩

/-- Model of `models.AppInstanceFields`, restricted to the fields `fetchInstanceCount` reads. -/
structure AppInstance where
  state : String
  details : String
deriving Repr, DecidableEq

/-- Constant `models.InstanceRunning`. -/
def InstanceRunning : String := "running"

/-- Constant `models.InstanceStarting`. -/
def InstanceStarting : String := "starting"

/-- Constant `models.InstanceFlapping`. -/
def InstanceFlapping : String := "flapping"

/-- Constant `models.InstanceDown`. -/
def InstanceDown : String := "down"

/-- Constant `models.InstanceCrashed`. -/
def InstanceCrashed : String := "crashed"

/-- The `instanceCount` struct; the Go `map[string]struct\x7b\x7d` of starting
details becomes a duplicate-free list in insertion order. -/
structure instanceCount where
  running : Nat
  starting : Nat
  startingDetails : List String
  flapping : Nat
  down : Nat
  crashed : Nat
  total : Nat
deriving Repr, DecidableEq

/-- Set-insert into the starting-details collection. -/
def insertDetail (s : List String) (d : String) : List String :=
  if d ∈ s then s else s ++ [d]

/-- One iteration of the `for _, inst := range instances` switch in
`fetchInstanceCount`. -/
def countOne (c : instanceCount) (inst : AppInstance) : instanceCount :=
  if inst.state = InstanceRunning then
    { c with running := c.running + 1 }
  else if inst.state = InstanceStarting then
    { c with starting := c.starting + 1,
             startingDetails :=
               if inst.details = "" then c.startingDetails
               else insertDetail c.startingDetails inst.details }
  else if inst.state = InstanceFlapping then
    { c with flapping := c.flapping + 1 }
  else if inst.state = InstanceDown then
    { c with down := c.down + 1 }
  else if inst.state = InstanceCrashed then
    { c with crashed := c.crashed + 1 }
  else
    c

/-- The counting loop of `fetchInstanceCount`: `count.total = len(instances)`
is set before the loop, then every instance is switched on its state. -/
def countInstances (instances : List AppInstance) : instanceCount :=
  instances.foldl countOne ⟨0, 0, [], 0, 0, 0, instances.length⟩

/-- Model of `fetchInstanceCount`: fetch the raw instance list from the repository
(the fetch outcome is the argument) and count it. -/
def fetchInstanceCount (fetched : Except String (List AppInstance)) :
    Except String instanceCount :=
  match fetched with
  | .error e => .error e
  | .ok instances => .ok (countInstances instances)

/-- Observable side effects recorded by the embedding. -/
inductive Ev where
  | fetchApp
  | fetchInstances
  | sleep (d : Nat)
  | warn (s : String)
  | say (s : String)
  | sayOk
  | launchTailer
  | awaitReady
  | startOp
  | signalStop
  | awaitDone
  | closeLogRepo
  | showApp
deriving Repr, DecidableEq

/-- Result of the staging-poll loop body of `waitForInstancesToStage`:
current `app` and `err` variables, the accumulated wall-clock ticks, and
the event trace. -/
structure LoopOut where
  app : Application
  err : Option String
  elapsed : Nat
  trace : List Ev
deriving Repr, DecidableEq

/-- The `for app.PackageState != "STAGED" && app.PackageState != "FAILED" &&
time.Since(stagingStartTime) < cmd.StagingTimeout` loop of
`waitForInstancesToStage`.  `getApp i` is the outcome of the `i`-th
`appRepo.GetApp` call.  The fuel argument only guards Lean totality;
`stagePollLoop_fuel_irrelevant`-style lemmas below show the chosen fuel
`stagingTimeout + 1` is never exhausted when `1 ≤ pingerThrottle`. -/
def stagePollLoop (getApp : Nat → Application × Option String)
    (stagingTimeout pingerThrottle : Nat) :
    Nat → Application → Nat → Nat → LoopOut
  | 0, app, _, elapsed => ⟨app, none, elapsed, []⟩
  | fuel + 1, app, fetchIdx, elapsed =>
    if app.packageState ≠ "STAGED" ∧ app.packageState ≠ "FAILED" ∧
        elapsed < stagingTimeout then
      match getApp fetchIdx with
      | (app2, some e) => ⟨app2, some e, elapsed, [Ev.fetchApp]⟩
      | (app2, none) =>
        let r := stagePollLoop getApp stagingTimeout pingerThrottle fuel app2
          (fetchIdx + 1) (elapsed + pingerThrottle)
        ⟨r.app, r.err, r.elapsed, Ev.fetchApp :: Ev.sleep pingerThrottle :: r.trace⟩
    else ⟨app, none, elapsed, []⟩

/-- Extended staging-failure tip, rendered from the
`NoAppDetectedError` branch of `waitForInstancesToStage`. -/
def noAppDetectedTip (reason appName : String) : String :=
  reason ++
  "\n\nTIP: Buildpacks are detected when the cf push is executed from within the directory that contains the app source code.\n\nUse cf buildpacks to see a list of supported buildpacks.\n\nUse cf logs " ++
  appName ++ " --recent for more in depth log information."

/-- Generic staging-failure tip, rendered from the fall-through branch of
`waitForInstancesToStage`. -/
def genericStagingTip (reason appName : String) : String :=
  reason ++ "\n\nTIP: use cf logs " ++ appName ++ " --recent for more information"

/-- The `app.PackageState == "FAILED"` branch: the recognized
`NoAppDetectedError` reason yields the extended tip, any other reason the
generic one. -/
def stagingFailedMsg (reason appName : String) : String :=
  if reason = "NoAppDetectedError" then noAppDetectedTip reason appName
  else genericStagingTip reason appName

/-- Result of `waitForInstancesToStage`: the returned `(bool, error)` pair
plus ghost data (final `app` variable, final elapsed ticks) and the trace. -/
structure StageResult where
  staged : Bool
  err : Option String
  finalApp : Application
  elapsed : Nat
  trace : List Ev
deriving Repr, DecidableEq

/-- The epilogue of `waitForInstancesToStage` (lines after the fetch loop):
fetch error first, then the FAILED check, then
`time.Since(stagingStartTime) >= cmd.StagingTimeout`, else `(true, nil)`. -/
def finishStage (out : LoopOut) (stagingTimeout : Nat) : StageResult :=
  match out.err with
  | some e => ⟨false, some e, out.app, out.elapsed, out.trace⟩
  | none =>
    if out.app.packageState = "FAILED" then
      ⟨false, some (stagingFailedMsg out.app.stagingFailedReason out.app.name),
        out.app, out.elapsed, out.trace ++ [Ev.say ""]⟩
    else if stagingTimeout ≤ out.elapsed then
      ⟨false, none, out.app, out.elapsed, out.trace⟩
    else
      ⟨true, none, out.app, out.elapsed, out.trace⟩

/-- Model of `waitForInstancesToStage`: a single `GetApp` fetch when
`cmd.StagingTimeout == 0`, the poll loop otherwise, then the shared
epilogue.  In the zero-deadline branch `time.Since` is the `elapsed = 0`
tick counter, so the epilogue deadline check `0 ≥ 0` fires. -/
def waitForInstancesToStage (getApp : Nat → Application × Option String)
    (stagingTimeout pingerThrottle : Nat) (app : Application) : StageResult :=
  if stagingTimeout = 0 then
    match getApp 0 with
    | (app2, err) => finishStage ⟨app2, err, 0, [Ev.fetchApp]⟩ stagingTimeout
  else
    finishStage
      (stagePollLoop getApp stagingTimeout pingerThrottle (stagingTimeout + 1) app 0 0)
      stagingTimeout

/-- Byte-wise list-of-characters comparison, the order `sort.Strings` uses. -/
def charsLt : List Char → List Char → Bool
  | [], [] => false
  | [], _ :: _ => true
  | _ :: _, [] => false
  | a :: as, b :: bs =>
    if a.toNat < b.toNat then true
    else if b.toNat < a.toNat then false
    else charsLt as bs

/-- String comparison for `sort.Strings`. -/
def strLt (a b : String) : Bool := charsLt a.toList b.toList

/-- Insertion step of the display-time sort of starting details. -/
def insertSorted (d : String) : List String → List String
  | [] => [d]
  | x :: xs => if strLt d x then d :: x :: xs else x :: insertSorted d xs

/-- Model of `sort.Strings` on the collected starting details. -/
def sortStrings (l : List String) : List String := l.foldr insertSorted []

/-- Model of `instancesDetails`: the human-readable progress line emitted after each
successful instance fetch. -/
def instancesDetails (count : instanceCount) : String :=
  let details := [toString count.running ++ " of " ++ toString count.total ++
    " instances running"]
  let details :=
    if 0 < count.starting then
      if count.startingDetails = [] then
        details ++ [toString count.starting ++ " starting"]
      else
        details ++ [toString count.starting ++ " starting (" ++
          String.intercalate ", " (sortStrings count.startingDetails) ++ ")"]
    else details
  let details :=
    if 0 < count.down then details ++ [toString count.down ++ " down"] else details
  let details :=
    if 0 < count.flapping then details ++ [toString count.flapping ++ " failing"]
    else details
  let details :=
    if 0 < count.crashed then details ++ [toString count.crashed ++ " crashed"]
    else details
  String.intercalate ", " details

/-- The startup-deadline error of `waitForOneRunningInstance`, rendered. -/
def startupTimeoutMsg (appName : String) : String :=
  "Start app timeout\n\nTIP: Application must be listening on the right port. Instead of hard coding the port, use the $PORT environment variable.\n\n" ++
  "Use cf logs " ++ appName ++ " --recent for more information"

/-- The flapping/crashed error of `waitForOneRunningInstance`, rendered. -/
def startUnsuccessfulMsg (appName : String) : String :=
  "Start unsuccessful\n\nTIP: use cf logs " ++ appName ++ " --recent for more information"

/-- Result of `waitForOneRunningInstance`: the returned error and the trace. -/
structure InstOut where
  err : Option String
  trace : List Ev
deriving Repr, DecidableEq

/-- The `for { select \x7b ... \x7d }` loop of `waitForOneRunningInstance`.
The `<-timer.C` case is taken exactly when the startup deadline has
elapsed (Go `select` prefers a ready channel over `default`); otherwise
the `default` branch fetches the instance count.  `getInstances i` is the
outcome of the `i`-th `GetInstances` call.  Fuel as in `stagePollLoop`. -/
def instPollLoop (getInstances : Nat → Except String (List AppInstance))
    (startupTimeout pingerThrottle : Nat) (appName : String) :
    Nat → Nat → Nat → InstOut
  | 0, _, _ => ⟨none, []⟩
  | fuel + 1, fetchIdx, elapsed =>
    if startupTimeout ≤ elapsed then ⟨some (startupTimeoutMsg appName), []⟩
    else
      match fetchInstanceCount (getInstances fetchIdx) with
      | .error e =>
        let r := instPollLoop getInstances startupTimeout pingerThrottle appName
          fuel (fetchIdx + 1) (elapsed + pingerThrottle)
        ⟨r.err, Ev.fetchInstances ::
          Ev.warn ("Could not fetch instance count: " ++ e) ::
          Ev.sleep pingerThrottle :: r.trace⟩
      | .ok count =>
        if 0 < count.running then
          ⟨none, [Ev.fetchInstances, Ev.say (instancesDetails count)]⟩
        else if 0 < count.flapping ∨ 0 < count.crashed then
          ⟨some (startUnsuccessfulMsg appName),
            [Ev.fetchInstances, Ev.say (instancesDetails count)]⟩
        else
          let r := instPollLoop getInstances startupTimeout pingerThrottle appName
            fuel (fetchIdx + 1) (elapsed + pingerThrottle)
          ⟨r.err, Ev.fetchInstances :: Ev.say (instancesDetails count) ::
            Ev.sleep pingerThrottle :: r.trace⟩

/-- Model of `waitForOneRunningInstance`: start the startup-deadline timer and run
the poll loop from call 0 at tick 0. -/
def waitForOneRunningInstance (getInstances : Nat → Except String (List AppInstance))
    (startupTimeout pingerThrottle : Nat) (app : Application) : InstOut :=
  instPollLoop getInstances startupTimeout pingerThrottle app.name
    (startupTimeout + 1) 0 0

/-- The `ConnectionType` enumeration of the log tailer. -/
inductive ConnectionType where
  | NoConnection
  | ConnectionWasEstablished
  | ConnectionWasClosed
  | StoppedTrying
deriving Repr, DecidableEq

/-- External events delivered to `TailStagingLogs`: the `onConnect`
callback run by the transport goroutine, the connection-timeout timer
firing, a receive on the message channel `c` (with its `ok` flag), a
receive on the error channel `e` (with its `ok` flag), and the caller's
stop signal.  A schedule (list of these) fixes one interleaving of the
races; callback and channel deliveries are modelled as atomic. -/
inductive TailEv where
  | connect
  | timerFires
  | msg (sourceName text : String) (ok : Bool)
  | errEv (e : String) (ok : Bool)
  | stop
deriving Repr, DecidableEq

/-- State of one `TailStagingLogs` invocation: the task-local
`connectionStatus`, how many times `startWait.Done` (the "ready" signal)
and `doneWait.Done` (the deferred "done" signal) have run, whether the
select loop has exited, and the UI/side-effect trace. -/
structure TailState where
  status : ConnectionType
  readyCount : Nat
  doneCount : Nat
  exited : Bool
  trace : List Ev
deriving Repr, DecidableEq

/-- State at the top of `TailStagingLogs`. -/
def initTailState : TailState := ⟨.NoConnection, 0, 0, false, []⟩

/-- The `onConnect` closure: guarded against running after the timer gave
up, it marks the connection established and releases `startWait`. -/
def onConnect (s : TailState) : TailState :=
  if s.status ≠ ConnectionType.StoppedTrying then
    { s with status := .ConnectionWasEstablished, readyCount := s.readyCount + 1 }
  else s

/-- Leaving the select loop: the deferred `doneWait.Done()` runs. -/
def exitTail (s : TailState) : TailState :=
  { s with exited := true, doneCount := s.doneCount + 1 }

/-- Constant `LogMessageTypeStaging`, the staging-tagged source name (`"STG"`). -/
def LogMessageTypeStaging : String := "STG"

/-- One delivered event of `TailStagingLogs`.  The `onConnect` callback
can still run after the select loop has exited (it lives on the
transport goroutine); all other events are simply never received once
the loop has returned. -/
def tailStep (s : TailState) (ev : TailEv) : TailState :=
  match ev with
  | .connect => onConnect s
  | .timerFires =>
    if s.exited then s
    else if s.status = .NoConnection then
      exitTail
        { s with
          status := .StoppedTrying
          readyCount := s.readyCount + 1
          trace := s.trace ++
            [Ev.warn "timeout connecting to log server, no log will be shown"] }
    else s
  | .msg src text ok =>
    if s.exited then s
    else if ok = false then exitTail s
    else if src = LogMessageTypeStaging then { s with trace := s.trace ++ [Ev.say text] }
    else s
  | .errEv e ok =>
    if s.exited then s
    else if ok then
      if s.status ≠ .ConnectionWasClosed then
        exitTail { s with
          readyCount :=
            if s.status = .NoConnection then s.readyCount + 1 else s.readyCount,
          trace := s.trace ++ [Ev.warn "Warning: error tailing logs", Ev.say e] }
      else s
    else s
  | .stop =>
    if s.exited then s
    else if s.status = .ConnectionWasEstablished then
      { s with status := .ConnectionWasClosed, trace := s.trace ++ [Ev.closeLogRepo] }
    else exitTail s

/-- Model of `TailStagingLogs` under a given delivery schedule. -/
def TailStagingLogs (sched : List TailEv) : TailState :=
  sched.foldl tailStep initTailState

/-- Configuration read from `cmd`: the three timeouts relevant at this
level plus the poll interval (ticks). -/
structure Config where
  stagingTimeout : Nat
  startupTimeout : Nat
  pingerThrottle : Nat
deriving Repr, DecidableEq

/-- Collaborators of `WatchStaging`: the `start` closure, the staging
`GetApp` fetches, the instance fetches, the final `GetApp` after startup
and the outcome of `appDisplayer.ShowApp`. -/
structure StartEnv where
  startOp : Application → Application × Option String
  getApp : Nat → Application × Option String
  getInstances : Nat → Except String (List AppInstance)
  finalGetApp : Application × Option String
  showAppErr : Option String

/-- Result of `WatchStaging` / `ApplicationStart`: the returned
`(models.Application, error)` pair and the control-task event trace. -/
structure RunResult where
  app : Application
  err : Option String
  trace : List Ev
deriving Repr, DecidableEq

/-- The staging-deadline error built at `WatchStaging`'s
`!isStaged` check; `%f`-rendering of `Minutes()` is abstracted to the
integer minute count. -/
def stageTimeoutMsg (appName : String) (stagingTimeout : Nat) : String :=
  appName ++ " failed to stage within " ++ toString (stagingTimeout / 60) ++ " minutes"

/-- The `App started` header plus blank line plus `OK`, and the final
start-command report, as trace events. -/
def startCmdMsg (appName command : String) : String :=
  "\nApp " ++ appName ++ " was started using this command " ++ command ++ "\n"

/-- Model of `WatchStaging`: launch the tailer goroutine, block on the "ready"
handshake, run the start operation, poll staging, and only on the paths
that survive both of those signal the tailer to stop and await its
"done" handshake, then poll for a running instance and report.  The
early `return`s on a start error and on a staging error do not touch
`stopChan` or `loggingDoneWait`. -/
def WatchStaging (env : StartEnv) (cfg : Config) (app : Application) : RunResult :=
  let pre : List Ev := [Ev.launchTailer, Ev.awaitReady]
  match env.startOp app with
  | (_, some e) => ⟨zeroApp, some e, pre ++ [Ev.startOp]⟩
  | (updatedApp, none) =>
    let stage := waitForInstancesToStage env.getApp cfg.stagingTimeout
      cfg.pingerThrottle updatedApp
    match stage.err with
    | some e => ⟨zeroApp, some e, pre ++ [Ev.startOp] ++ stage.trace⟩
    | none =>
      let tr1 := pre ++ [Ev.startOp] ++ stage.trace ++
        [Ev.signalStop, Ev.awaitDone, Ev.say ""]
      if stage.staged then
        let inst := waitForOneRunningInstance env.getInstances cfg.startupTimeout
          cfg.pingerThrottle updatedApp
        match inst.err with
        | some e => ⟨zeroApp, some e, tr1 ++ inst.trace⟩
        | none =>
          let tr2 := tr1 ++ inst.trace ++ [Ev.say "\nApp started\n", Ev.say "", Ev.sayOk]
          match env.finalGetApp with
          | (_, some e) => ⟨zeroApp, some e, tr2 ++ [Ev.fetchApp]⟩
          | (startedApp, none) =>
            let appStartCommand :=
              if app.command = "" then startedApp.detectedStartCommand
              else startedApp.command
            let tr3 := tr2 ++ [Ev.fetchApp,
              Ev.say (startCmdMsg startedApp.name appStartCommand), Ev.showApp]
            match env.showAppErr with
            | some e => ⟨zeroApp, some e, tr3⟩
            | none => ⟨updatedApp, none, tr3⟩
      else
        ⟨zeroApp, some (stageTimeoutMsg app.name cfg.stagingTimeout), tr1⟩

/-- Model of `ApplicationStart`: short-circuit with a warning when the app is
already started, otherwise delegate to `WatchStaging` with the start
closure (the closure's own UI output stays below the `startOp`
abstraction). -/
def ApplicationStart (env : StartEnv) (cfg : Config) (app : Application) : RunResult :=
  if app.state = "started" then
    ⟨zeroApp, none, [Ev.say ("App " ++ app.name ++ " is already started")]⟩
  else
    WatchStaging env cfg app

/-- Recognized instance-state tags (the five cases of the switch). -/
def recognizedState (i : AppInstance) : Bool :=
  i.state == InstanceRunning || i.state == InstanceStarting ||
  i.state == InstanceFlapping || i.state == InstanceDown ||
  i.state == InstanceCrashed

/- Concrete fixtures used by witnesses and counterexamples. -/

/-- A stopped application whose package is still staging. -/
def appPending : Application := ⟨"app-guid", "myapp", "stopped", "PENDING", "", "", ""⟩

/-- The same application with its package staged. -/
def appStaged : Application := { appPending with packageState := "STAGED" }

/-- The same application with staging failed for the buildpack sentinel reason. -/
def appFailedNB : Application :=
  { appPending with
    packageState := "FAILED"
    stagingFailedReason := "NoAppDetectedError" }

/-- The same application already in started state. -/
def appStarted : Application := { appPending with state := "started" }

/-- Staging fetches that always find the package still pending. -/
def getAppPending : Nat → Application × Option String := fun _ => (appPending, none)

/-- Staging fetches that immediately find the package staged. -/
def getAppStaged : Nat → Application × Option String := fun _ => (appStaged, none)

/-- Staging fetches that immediately find the failed package. -/
def getAppFailedNB : Nat → Application × Option String := fun _ => (appFailedNB, none)

/-- Instance fetches that immediately show one running instance. -/
def getInstRunning : Nat → Except String (List AppInstance) :=
  fun _ => .ok [⟨InstanceRunning, ""⟩]

/-- Instance fetches that show a crashed instance and a down one. -/
def getInstCrashed : Nat → Except String (List AppInstance) :=
  fun _ => .ok [⟨InstanceCrashed, ""⟩, ⟨InstanceDown, ""⟩]

/-- Instance fetches that always fail. -/
def getInstFailing : Nat → Except String (List AppInstance) :=
  fun _ => .error "api down"

/-- Environment whose start operation fails. -/
def envStartFails : StartEnv :=
  { startOp := fun _ => (zeroApp, some "start op failed")
    getApp := getAppPending
    getInstances := getInstRunning
    finalGetApp := (appPending, none)
    showAppErr := none }

/-- Environment whose staging status fetch fails. -/
def envStageFetchFails : StartEnv :=
  { startOp := fun a => (a, none)
    getApp := fun _ => (zeroApp, some "fetch app failed")
    getInstances := getInstRunning
    finalGetApp := (appPending, none)
    showAppErr := none }

/-- Environment in which staging stays pending forever. -/
def envStagePending : StartEnv :=
  { startOp := fun a => (a, none)
    getApp := getAppPending
    getInstances := getInstRunning
    finalGetApp := (appPending, none)
    showAppErr := none }

/-- Configuration with a 120-tick (two-minute) staging deadline, with a poll interval of the
same length so a single poll cycle reaches the deadline. -/
def cfgTwoMinutes : Config := ⟨120, 10, 120⟩

/- Helper lemmas: field-by-field characterization of the counting loop. -/

theorem countOne_running (c : instanceCount) (i : AppInstance) :
    (countOne c i).running = c.running + (if i.state = InstanceRunning then 1 else 0) := by
  unfold countOne
  split_ifs <;> simp_all [InstanceRunning, InstanceStarting, InstanceFlapping,
    InstanceDown, InstanceCrashed]

theorem countOne_starting (c : instanceCount) (i : AppInstance) :
    (countOne c i).starting = c.starting + (if i.state = InstanceStarting then 1 else 0) := by
  unfold countOne
  split_ifs <;> simp_all [InstanceRunning, InstanceStarting, InstanceFlapping,
    InstanceDown, InstanceCrashed]

theorem countOne_flapping (c : instanceCount) (i : AppInstance) :
    (countOne c i).flapping = c.flapping + (if i.state = InstanceFlapping then 1 else 0) := by
  unfold countOne
  split_ifs <;> simp_all [InstanceRunning, InstanceStarting, InstanceFlapping,
    InstanceDown, InstanceCrashed]

theorem countOne_down (c : instanceCount) (i : AppInstance) :
    (countOne c i).down = c.down + (if i.state = InstanceDown then 1 else 0) := by
  unfold countOne
  split_ifs <;> simp_all [InstanceRunning, InstanceStarting, InstanceFlapping,
    InstanceDown, InstanceCrashed]

theorem countOne_crashed (c : instanceCount) (i : AppInstance) :
    (countOne c i).crashed = c.crashed + (if i.state = InstanceCrashed then 1 else 0) := by
  unfold countOne
  split_ifs <;> simp_all [InstanceRunning, InstanceStarting, InstanceFlapping,
    InstanceDown, InstanceCrashed]

theorem countOne_total (c : instanceCount) (i : AppInstance) :
    (countOne c i).total = c.total := by
  unfold countOne
  split_ifs <;> simp_all [InstanceRunning, InstanceStarting, InstanceFlapping,
    InstanceDown, InstanceCrashed]

theorem foldl_countOne_running (l : List AppInstance) :
    ∀ c : instanceCount, (l.foldl countOne c).running
      = c.running + l.countP (fun i => i.state == InstanceRunning) := by
  induction l with
  | nil => intro c; simp
  | cons i l ih =>
    intro c
    rw [List.foldl_cons, ih, countOne_running, List.countP_cons]
    by_cases h : i.state = InstanceRunning <;> simp [h] <;> omega

theorem foldl_countOne_starting (l : List AppInstance) :
    ∀ c : instanceCount, (l.foldl countOne c).starting
      = c.starting + l.countP (fun i => i.state == InstanceStarting) := by
  induction l with
  | nil => intro c; simp
  | cons i l ih =>
    intro c
    rw [List.foldl_cons, ih, countOne_starting, List.countP_cons]
    by_cases h : i.state = InstanceStarting <;> simp [h] <;> omega

theorem foldl_countOne_flapping (l : List AppInstance) :
    ∀ c : instanceCount, (l.foldl countOne c).flapping
      = c.flapping + l.countP (fun i => i.state == InstanceFlapping) := by
  induction l with
  | nil => intro c; simp
  | cons i l ih =>
    intro c
    rw [List.foldl_cons, ih, countOne_flapping, List.countP_cons]
    by_cases h : i.state = InstanceFlapping <;> simp [h] <;> omega

theorem foldl_countOne_down (l : List AppInstance) :
    ∀ c : instanceCount, (l.foldl countOne c).down
      = c.down + l.countP (fun i => i.state == InstanceDown) := by
  induction l with
  | nil => intro c; simp
  | cons i l ih =>
    intro c
    rw [List.foldl_cons, ih, countOne_down, List.countP_cons]
    by_cases h : i.state = InstanceDown <;> simp [h] <;> omega

theorem foldl_countOne_crashed (l : List AppInstance) :
    ∀ c : instanceCount, (l.foldl countOne c).crashed
      = c.crashed + l.countP (fun i => i.state == InstanceCrashed) := by
  induction l with
  | nil => intro c; simp
  | cons i l ih =>
    intro c
    rw [List.foldl_cons, ih, countOne_crashed, List.countP_cons]
    by_cases h : i.state = InstanceCrashed <;> simp [h] <;> omega

theorem foldl_countOne_total (l : List AppInstance) :
    ∀ c : instanceCount, (l.foldl countOne c).total = c.total := by
  induction l with
  | nil => intro c; simp
  | cons i l ih =>
    intro c
    rw [List.foldl_cons, ih, countOne_total]

theorem countP_recognized_sum (l : List AppInstance) :
    l.countP (fun i => i.state == InstanceRunning) +
    l.countP (fun i => i.state == InstanceStarting) +
    l.countP (fun i => i.state == InstanceFlapping) +
    l.countP (fun i => i.state == InstanceDown) +
    l.countP (fun i => i.state == InstanceCrashed) =
    l.countP recognizedState := by
  induction l with
  | nil => simp
  | cons i l ih =>
    simp only [List.countP_cons, recognizedState]
    by_cases h1 : i.state = InstanceRunning <;>
      by_cases h2 : i.state = InstanceStarting <;>
      by_cases h3 : i.state = InstanceFlapping <;>
      by_cases h4 : i.state = InstanceDown <;>
      by_cases h5 : i.state = InstanceCrashed <;>
      simp_all [InstanceRunning, InstanceStarting, InstanceFlapping,
        InstanceDown, InstanceCrashed] <;> omega

/-- C9: for every input instance list, `fetchInstanceCount`'s snapshot has
`total` equal to the list length, each per-state count equal to the number
of instances carrying that state tag, and instances with an unrecognized
tag contribute to `total` but to none of the per-state counts (the five
per-state counts sum to the number of recognized-tag instances). -/
theorem fetchInstanceCount_counts (l : List AppInstance) :
    (countInstances l).total = l.length ∧
    (countInstances l).running = l.countP (fun i => i.state == InstanceRunning) ∧
    (countInstances l).starting = l.countP (fun i => i.state == InstanceStarting) ∧
    (countInstances l).flapping = l.countP (fun i => i.state == InstanceFlapping) ∧
    (countInstances l).down = l.countP (fun i => i.state == InstanceDown) ∧
    (countInstances l).crashed = l.countP (fun i => i.state == InstanceCrashed) ∧
    (countInstances l).running + (countInstances l).starting +
      (countInstances l).flapping + (countInstances l).down +
      (countInstances l).crashed = l.countP recognizedState ∧
    fetchInstanceCount (.ok l) = .ok (countInstances l) := by
  unfold countInstances
  refine ⟨foldl_countOne_total l _, ?_, ?_, ?_, ?_, ?_, ?_, rfl⟩
  · rw [foldl_countOne_running]; simp
  · rw [foldl_countOne_starting]; simp
  · rw [foldl_countOne_flapping]; simp
  · rw [foldl_countOne_down]; simp
  · rw [foldl_countOne_crashed]; simp
  · rw [foldl_countOne_running, foldl_countOne_starting, foldl_countOne_flapping,
      foldl_countOne_down, foldl_countOne_crashed]
    simpa using countP_recognized_sum l

/- Helper lemmas about the staging-poll epilogue and loop. -/

theorem finishStage_finalApp (o : LoopOut) (t : Nat) :
    (finishStage o t).finalApp = o.app := by
  rcases h : o.err with _ | e <;> simp [finishStage, h] <;> split_ifs <;> rfl

theorem finishStage_elapsed (o : LoopOut) (t : Nat) :
    (finishStage o t).elapsed = o.elapsed := by
  rcases h : o.err with _ | e <;> simp [finishStage, h] <;> split_ifs <;> rfl

theorem finishStage_err_none (o : LoopOut) (t : Nat)
    (h : (finishStage o t).err = none) : o.err = none := by
  rcases he : o.err with _ | e
  · rfl
  · simp [finishStage, he] at h

/-- With a positive poll interval the loop cannot run out of fuel: if it
ends with the package still pending and no fetch error, the wall clock
has reached the deadline. -/
theorem stagePollLoop_pending_deadline (getApp : Nat → Application × Option String)
    (t thr : Nat) (hthr : 1 ≤ thr) :
    ∀ (fuel : Nat) (app : Application) (idx elapsed : Nat), t ≤ fuel + elapsed →
      (stagePollLoop getApp t thr fuel app idx elapsed).err = none →
      (stagePollLoop getApp t thr fuel app idx elapsed).app.packageState ≠ "STAGED" →
      (stagePollLoop getApp t thr fuel app idx elapsed).app.packageState ≠ "FAILED" →
      t ≤ (stagePollLoop getApp t thr fuel app idx elapsed).elapsed := by
  intro fuel
  induction fuel with
  | zero =>
    intro app idx elapsed hle _ _ _
    simpa [stagePollLoop] using hle
  | succ n ih =>
    intro app idx elapsed hle herr hs hf
    by_cases hguard : app.packageState ≠ "STAGED" ∧ app.packageState ≠ "FAILED" ∧
        elapsed < t
    · obtain ⟨h1, h2, h3⟩ := hguard
      rcases hg : getApp idx with ⟨a2, e⟩
      cases e with
      | some e2 =>
        have heq : stagePollLoop getApp t thr (n + 1) app idx elapsed
            = ⟨a2, some e2, elapsed, [Ev.fetchApp]⟩ := by
          simp [stagePollLoop, hg, h1, h2, h3]
        rw [heq] at herr
        simp at herr
      | none =>
        have heq : stagePollLoop getApp t thr (n + 1) app idx elapsed
            = ⟨(stagePollLoop getApp t thr n a2 (idx + 1) (elapsed + thr)).app,
               (stagePollLoop getApp t thr n a2 (idx + 1) (elapsed + thr)).err,
               (stagePollLoop getApp t thr n a2 (idx + 1) (elapsed + thr)).elapsed,
               Ev.fetchApp :: Ev.sleep thr ::
                 (stagePollLoop getApp t thr n a2 (idx + 1) (elapsed + thr)).trace⟩ := by
          simp [stagePollLoop, hg, h1, h2, h3]
        rw [heq] at herr hs hf ⊢
        exact ih a2 (idx + 1) (elapsed + thr) (by omega) herr hs hf
    · have heq : stagePollLoop getApp t thr (n + 1) app idx elapsed
          = ⟨app, none, elapsed, []⟩ := by
        unfold stagePollLoop
        rw [if_neg hguard]
      rw [heq] at hs hf ⊢
      have hnlt : ¬ elapsed < t := fun hlt => hguard ⟨hs, hf, hlt⟩
      show t ≤ elapsed
      omega

/-- When every `GetApp` fetch succeeds the loop never surfaces an error. -/
theorem stagePollLoop_err_none (getApp : Nat → Application × Option String)
    (t thr : Nat) (hok : ∀ i, (getApp i).2 = none) :
    ∀ (fuel : Nat) (app : Application) (idx elapsed : Nat),
      (stagePollLoop getApp t thr fuel app idx elapsed).err = none := by
  intro fuel
  induction fuel with
  | zero => intro app idx elapsed; simp [stagePollLoop]
  | succ n ih =>
    intro app idx elapsed
    by_cases hguard : app.packageState ≠ "STAGED" ∧ app.packageState ≠ "FAILED" ∧
        elapsed < t
    · obtain ⟨h1, h2, h3⟩ := hguard
      rcases hg : getApp idx with ⟨a2, e⟩
      have he : e = none := by
        have := hok idx
        rw [hg] at this
        exact this
      subst he
      have heq : stagePollLoop getApp t thr (n + 1) app idx elapsed
          = ⟨(stagePollLoop getApp t thr n a2 (idx + 1) (elapsed + thr)).app,
             (stagePollLoop getApp t thr n a2 (idx + 1) (elapsed + thr)).err,
             (stagePollLoop getApp t thr n a2 (idx + 1) (elapsed + thr)).elapsed,
             Ev.fetchApp :: Ev.sleep thr ::
               (stagePollLoop getApp t thr n a2 (idx + 1) (elapsed + thr)).trace⟩ := by
        simp [stagePollLoop, hg, h1, h2, h3]
      rw [heq]
      exact ih a2 (idx + 1) (elapsed + thr)
    · unfold stagePollLoop
      rw [if_neg hguard]

/-- C2 counterexample: with `StagingTimeout = 0` and a single successful
fetch that finds the package `STAGED`, `waitForInstancesToStage` returns
`staged = false` (with a nil error), not `staged = (state == STAGED)`:
the epilogue deadline check `time.Since >= 0` always fires. -/
theorem stagePoller_zero_deadline_counterexample :
    (getAppStaged 0).2 = none ∧
    (getAppStaged 0).1.packageState = "STAGED" ∧
    (waitForInstancesToStage getAppStaged 0 5 appPending).staged = false ∧
    (waitForInstancesToStage getAppStaged 0 5 appPending).err = none := by
  decide

/-- C2 (amended): with a zero staging deadline the poller performs exactly
one `GetApp` fetch and never sleeps; when that fetch succeeds and the
fetched state is not FAILED it returns `(false, nil)` regardless of
whether the state is STAGED, since the zero deadline is already elapsed
at the epilogue check. -/
theorem stagePoller_zero_deadline (getApp : Nat → Application × Option String)
    (thr : Nat) (app : Application) :
    (waitForInstancesToStage getApp 0 thr app).trace.count Ev.fetchApp = 1 ∧
    (∀ d, Ev.sleep d ∉ (waitForInstancesToStage getApp 0 thr app).trace) ∧
    ((getApp 0).2 = none → (getApp 0).1.packageState ≠ "FAILED" →
      (waitForInstancesToStage getApp 0 thr app).staged = false ∧
      (waitForInstancesToStage getApp 0 thr app).err = none) := by
  rcases hg : getApp 0 with ⟨a2, e⟩
  have h0 : waitForInstancesToStage getApp 0 thr app
      = finishStage ⟨a2, e, 0, [Ev.fetchApp]⟩ 0 := by
    unfold waitForInstancesToStage
    rw [if_pos rfl, hg]
  rw [h0]
  cases e with
  | some e2 =>
    refine ⟨by simp [finishStage], fun d => by simp [finishStage], fun h => ?_⟩
    simp at h
  | none =>
    by_cases hfail : a2.packageState = "FAILED"
    · refine ⟨by simp [finishStage, hfail], fun d => by simp [finishStage, hfail],
        fun _ h2 => ?_⟩
      exact absurd hfail (by simpa using h2)
    · exact ⟨by simp [finishStage, hfail], fun d => by simp [finishStage, hfail],
        fun _ _ => by simp [finishStage, hfail]⟩

/-- Witness for the amended C2 at a concrete staged fetch. -/
theorem stagePoller_zero_deadline_witness :
    (waitForInstancesToStage getAppStaged 0 5 appPending).staged = false ∧
    (waitForInstancesToStage getAppStaged 0 5 appPending).err = none :=
  (stagePoller_zero_deadline getAppStaged 5 appPending).2.2 (by decide) (by decide)

/-- C4 counterexample: staging deadline 5, poll interval 5; the single
poll cycle fetches a STAGED package, but the sleep after the fetch pushes
the wall clock to the deadline, so the loop exits with state STAGED and
`waitForInstancesToStage` still returns `(false, nil)` — the claim's
"loop exits with state STAGED implies `(true, nil)`" fails. -/
theorem stagePoller_staged_at_deadline_counterexample :
    (waitForInstancesToStage getAppStaged 5 5 appPending).finalApp.packageState
      = "STAGED" ∧
    (waitForInstancesToStage getAppStaged 5 5 appPending).err = none ∧
    (waitForInstancesToStage getAppStaged 5 5 appPending).staged = false := by
  decide

/-- C4 (amended): with a non-zero deadline and positive poll interval,
if the poller ends with no fetch error and the package still pending the
deadline has elapsed and it returns `staged = false` (a non-error
outcome); if the loop exits with state STAGED it returns `(true, nil)`
exactly when the accumulated wall clock is still below the deadline. -/
theorem stagePoller_deadline_vs_staged (getApp : Nat → Application × Option String)
    (t thr : Nat) (app : Application) (ht : t ≠ 0) (hthr : 1 ≤ thr) :
    ((waitForInstancesToStage getApp t thr app).err = none →
      (waitForInstancesToStage getApp t thr app).finalApp.packageState ≠ "STAGED" →
      (waitForInstancesToStage getApp t thr app).finalApp.packageState ≠ "FAILED" →
      (waitForInstancesToStage getApp t thr app).staged = false ∧
      t ≤ (waitForInstancesToStage getApp t thr app).elapsed) ∧
    ((waitForInstancesToStage getApp t thr app).err = none →
      (waitForInstancesToStage getApp t thr app).finalApp.packageState = "STAGED" →
      ((waitForInstancesToStage getApp t thr app).staged = true ↔
        (waitForInstancesToStage getApp t thr app).elapsed < t)) := by
  have hunf : waitForInstancesToStage getApp t thr app
      = finishStage (stagePollLoop getApp t thr (t + 1) app 0 0) t := by
    unfold waitForInstancesToStage
    rw [if_neg ht]
  rw [hunf]
  set o := stagePollLoop getApp t thr (t + 1) app 0 0 with ho
  constructor
  · intro herr hs hf
    rw [finishStage_finalApp] at hs hf
    have hoerr : o.err = none := finishStage_err_none o t herr
    have hle : t ≤ o.elapsed :=
      stagePollLoop_pending_deadline getApp t thr hthr (t + 1) app 0 0
        (by omega) hoerr hs hf
    constructor
    · simp [finishStage, hoerr, hf, hle]
    · rw [finishStage_elapsed]
      exact hle
  · intro herr hstag
    rw [finishStage_finalApp] at hstag
    have hoerr : o.err = none := finishStage_err_none o t herr
    have hnf : o.app.packageState ≠ "FAILED" := by
      rw [hstag]
      simp
    constructor
    · intro hstg
      rw [finishStage_elapsed]
      by_contra hnlt
      push_neg at hnlt
      simp [finishStage, hoerr, hnf, hnlt] at hstg
    · intro hlt
      rw [finishStage_elapsed] at hlt
      have hnle : ¬ t ≤ o.elapsed := by omega
      simp [finishStage, hoerr, hnf, hnle]

/-- Witness for the amended C4: pending forever with deadline 5 and
interval 5 gives the non-error timeout outcome. -/
theorem stagePoller_deadline_vs_staged_witness :
    (waitForInstancesToStage getAppPending 5 5 appPending).staged = false ∧
    5 ≤ (waitForInstancesToStage getAppPending 5 5 appPending).elapsed :=
  (stagePoller_deadline_vs_staged getAppPending 5 5 appPending (by decide)
    (by decide)).1 (by decide) (by decide) (by decide)

/-- C5: whenever the poller ends with the fetched package state FAILED
(all fetches succeeding), it returns a non-nil error; the
`NoAppDetectedError` reason yields the extended buildpack tip and every
other reason the shorter generic tip. -/
theorem stagePoller_failed_state (getApp : Nat → Application × Option String)
    (t thr : Nat) (app : Application) (hok : ∀ i, (getApp i).2 = none) :
    (waitForInstancesToStage getApp t thr app).finalApp.packageState = "FAILED" →
    (waitForInstancesToStage getApp t thr app).err ≠ none ∧
    ((waitForInstancesToStage getApp t thr app).finalApp.stagingFailedReason
        = "NoAppDetectedError" →
      (waitForInstancesToStage getApp t thr app).err = some
        (noAppDetectedTip
          (waitForInstancesToStage getApp t thr app).finalApp.stagingFailedReason
          (waitForInstancesToStage getApp t thr app).finalApp.name)) ∧
    ((waitForInstancesToStage getApp t thr app).finalApp.stagingFailedReason
        ≠ "NoAppDetectedError" →
      (waitForInstancesToStage getApp t thr app).err = some
        (genericStagingTip
          (waitForInstancesToStage getApp t thr app).finalApp.stagingFailedReason
          (waitForInstancesToStage getApp t thr app).finalApp.name)) := by
  intro hfailed
  have key : ∃ o : LoopOut,
      waitForInstancesToStage getApp t thr app = finishStage o t ∧ o.err = none := by
    by_cases ht : t = 0
    · subst ht
      rcases hg : getApp 0 with ⟨a2, e⟩
      refine ⟨⟨a2, e, 0, [Ev.fetchApp]⟩, ?_, ?_⟩
      · unfold waitForInstancesToStage
        rw [if_pos rfl, hg]
      · have := hok 0
        rw [hg] at this
        exact this
    · exact ⟨stagePollLoop getApp t thr (t + 1) app 0 0,
        by unfold waitForInstancesToStage; rw [if_neg ht],
        stagePollLoop_err_none getApp t thr hok (t + 1) app 0 0⟩
  obtain ⟨o, heq, hoerr⟩ := key
  rw [heq] at hfailed ⊢
  rw [finishStage_finalApp] at hfailed ⊢
  refine ⟨?_, ?_, ?_⟩
  · simp [finishStage, hoerr, hfailed]
  · intro hr
    simp [finishStage, hoerr, hfailed, stagingFailedMsg, hr]
  · intro hr
    simp [finishStage, hoerr, hfailed, stagingFailedMsg, hr]

/-- Witness for C5 at a concrete failed staging with the buildpack
sentinel reason. -/
theorem stagePoller_failed_state_witness :
    (waitForInstancesToStage getAppFailedNB 0 5 appPending).err = some
      (noAppDetectedTip
        (waitForInstancesToStage getAppFailedNB 0 5 appPending).finalApp.stagingFailedReason
        (waitForInstancesToStage getAppFailedNB 0 5 appPending).finalApp.name) :=
  (stagePoller_failed_state getAppFailedNB 0 5 appPending (fun _ => rfl)
    (by decide)).2.1 (by decide)

/-- Inside the startup deadline, an all-failing fetch environment drives
the instance poller to the deadline error: retries are bounded only by
the deadline timer. -/
theorem instPollLoop_allErr (getInstances : Nat → Except String (List AppInstance))
    (t thr : Nat) (appName : String)
    (hall : ∀ i, ∃ e2, getInstances i = .error e2) (hthr : 1 ≤ thr) :
    ∀ (fuel idx elapsed : Nat), 1 ≤ fuel → t + 1 ≤ fuel + elapsed →
      (instPollLoop getInstances t thr appName fuel idx elapsed).err
        = some (startupTimeoutMsg appName) := by
  intro fuel
  induction fuel with
  | zero => intro idx elapsed h0 _; omega
  | succ n ih =>
    intro idx elapsed _ hle
    by_cases hto : t ≤ elapsed
    · simp [instPollLoop, hto]
    · obtain ⟨e2, hg⟩ := hall idx
      have heq : instPollLoop getInstances t thr appName (n + 1) idx elapsed
          = ⟨(instPollLoop getInstances t thr appName n (idx + 1) (elapsed + thr)).err,
             Ev.fetchInstances :: Ev.warn ("Could not fetch instance count: " ++ e2) ::
               Ev.sleep thr ::
               (instPollLoop getInstances t thr appName n (idx + 1) (elapsed + thr)).trace⟩ := by
        simp [instPollLoop, hto, hg, fetchInstanceCount]
      rw [heq]
      exact ih (idx + 1) (elapsed + thr) (by omega) (by omega)

/-- C6: at any reachable loop state inside the startup deadline, a fetched
snapshot with `running ≥ 1` makes `waitForOneRunningInstance`'s loop
return nil immediately, regardless of the other counts and of what the
state accumulated from earlier fetches was; and a snapshot with
`running = 0` and `flapping > 0` or `crashed > 0` makes it return the
fatal error at that point, with no further instance fetch in its trace. -/
theorem instPoller_first_decision (getInstances : Nat → Except String (List AppInstance))
    (t thr : Nat) (appName : String) (fuel idx elapsed : Nat)
    (instances : List AppInstance)
    (hlt : elapsed < t) (hg : getInstances idx = .ok instances) :
    (0 < (countInstances instances).running →
      instPollLoop getInstances t thr appName (fuel + 1) idx elapsed
        = ⟨none, [Ev.fetchInstances,
            Ev.say (instancesDetails (countInstances instances))]⟩) ∧
    ((countInstances instances).running = 0 →
      0 < (countInstances instances).flapping ∨ 0 < (countInstances instances).crashed →
      instPollLoop getInstances t thr appName (fuel + 1) idx elapsed
        = ⟨some (startUnsuccessfulMsg appName),
           [Ev.fetchInstances, Ev.say (instancesDetails (countInstances instances))]⟩ ∧
      (instPollLoop getInstances t thr appName (fuel + 1) idx elapsed).trace.count
        Ev.fetchInstances = 1) := by
  have hnle : ¬ t ≤ elapsed := by omega
  constructor
  · intro hrun
    simp [instPollLoop, hnle, hg, fetchInstanceCount, hrun]
  · intro hrun hfc
    have heq : instPollLoop getInstances t thr appName (fuel + 1) idx elapsed
        = ⟨some (startUnsuccessfulMsg appName),
           [Ev.fetchInstances, Ev.say (instancesDetails (countInstances instances))]⟩ := by
      simp [instPollLoop, hnle, hg, fetchInstanceCount, hrun, hfc]
    refine ⟨heq, ?_⟩
    rw [heq]
    simp

/-- Witness for C6: one running instance on the first fetch. -/
theorem instPoller_first_decision_witness :
    instPollLoop getInstRunning 10 1 "myapp" 3 0 0
      = ⟨none, [Ev.fetchInstances,
          Ev.say (instancesDetails (countInstances [⟨InstanceRunning, ""⟩]))]⟩ :=
  (instPoller_first_decision getInstRunning 10 1 "myapp" 2 0 0
    [⟨InstanceRunning, ""⟩] (by decide) rfl).1 (by decide)

/-- C7: inside the startup deadline, a failed instance fetch is never
terminal: the loop records the warning, sleeps one poll interval and
continues with the next fetch, its outcome being exactly the
continuation's outcome; and when every fetch fails, the only exit is the
startup-deadline error. -/
theorem instPoller_fetch_error_retries (getInstances : Nat → Except String (List AppInstance))
    (t thr : Nat) (appName : String) (fuel idx elapsed : Nat) (e : String)
    (hlt : elapsed < t) (hg : getInstances idx = .error e) :
    (instPollLoop getInstances t thr appName (fuel + 1) idx elapsed
      = ⟨(instPollLoop getInstances t thr appName fuel (idx + 1) (elapsed + thr)).err,
         Ev.fetchInstances :: Ev.warn ("Could not fetch instance count: " ++ e) ::
           Ev.sleep thr ::
           (instPollLoop getInstances t thr appName fuel (idx + 1) (elapsed + thr)).trace⟩) ∧
    ((∀ i, ∃ e2, getInstances i = .error e2) → 1 ≤ thr → t ≤ fuel + elapsed →
      (instPollLoop getInstances t thr appName (fuel + 1) idx elapsed).err
        = some (startupTimeoutMsg appName)) := by
  have hnle : ¬ t ≤ elapsed := by omega
  constructor
  · simp [instPollLoop, hnle, hg, fetchInstanceCount]
  · intro hall hthr hfuel
    exact instPollLoop_allErr getInstances t thr appName hall hthr (fuel + 1) idx
      elapsed (by omega) (by omega)

/-- Witness for C7: all fetches failing with deadline 2 and interval 1
ends in the startup-deadline error after retrying. -/
theorem instPoller_fetch_error_retries_witness :
    (instPollLoop getInstFailing 2 1 "myapp" 3 0 0).err
      = some (startupTimeoutMsg "myapp") :=
  (instPoller_fetch_error_retries getInstFailing 2 1 "myapp" 2 0 0 "api down"
    (by decide) rfl).2 (fun _ => ⟨"api down", rfl⟩) (by decide) (by decide)

/- Helper lemmas for the log tailer handshake. -/

theorem tailStep_ready_stable (s : TailState) (ev : TailEv)
    (hst : s.status ≠ .NoConnection) (hev : ev ≠ TailEv.connect) :
    (tailStep s ev).readyCount = s.readyCount ∧
    (tailStep s ev).status ≠ ConnectionType.NoConnection := by
  cases ev with
  | connect => exact absurd rfl hev
  | timerFires =>
    simp only [tailStep]
    split_ifs <;> simp_all [exitTail]
  | msg src text ok =>
    simp only [tailStep]
    split_ifs <;> simp_all [exitTail]
  | errEv e ok =>
    simp only [tailStep]
    split_ifs <;> simp_all [exitTail]
  | stop =>
    simp only [tailStep]
    split_ifs <;> simp_all [exitTail]

theorem foldl_ready_stable (sched : List TailEv) :
    ∀ s : TailState, s.status ≠ .NoConnection → TailEv.connect ∉ sched →
      (sched.foldl tailStep s).readyCount = s.readyCount := by
  induction sched with
  | nil => intro s _ _; rfl
  | cons ev l ih =>
    intro s hst hmem
    have hev : ev ≠ TailEv.connect := by
      intro h
      exact hmem (h ▸ List.mem_cons_self ev l)
    obtain ⟨h1, h2⟩ := tailStep_ready_stable s ev hst hev
    rw [List.foldl_cons,
      ih (tailStep s ev) h2 (fun h => hmem (List.mem_cons_of_mem ev h)), h1]

theorem tailStep_exited_stopped (s : TailState) (ev : TailEv)
    (hex : s.exited = true) (hst : s.status = .StoppedTrying) :
    tailStep s ev = s := by
  cases ev <;> simp [tailStep, onConnect, hex, hst]

theorem foldl_exited_stopped (sched : List TailEv) :
    ∀ s : TailState, s.exited = true → s.status = .StoppedTrying →
      sched.foldl tailStep s = s := by
  induction sched with
  | nil => intro s _ _; rfl
  | cons ev l ih =>
    intro s hex hst
    rw [List.foldl_cons, tailStep_exited_stopped s ev hex hst, ih s hex hst]

theorem tailStep_exited (s : TailState) (ev : TailEv)
    (hex : s.exited = true) (hev : ev ≠ TailEv.connect) :
    tailStep s ev = s := by
  cases ev with
  | connect => exact absurd rfl hev
  | timerFires => simp [tailStep, hex]
  | msg src text ok => simp [tailStep, hex]
  | errEv e ok => simp [tailStep, hex]
  | stop => simp [tailStep, hex]

theorem foldl_exited (sched : List TailEv) :
    ∀ s : TailState, s.exited = true → TailEv.connect ∉ sched →
      sched.foldl tailStep s = s := by
  induction sched with
  | nil => intro s _ _; rfl
  | cons ev l ih =>
    intro s hex hmem
    have hev : ev ≠ TailEv.connect := by
      intro h
      exact hmem (h ▸ List.mem_cons_self ev l)
    rw [List.foldl_cons, tailStep_exited s ev hex hev,
      ih s hex (fun h => hmem (List.mem_cons_of_mem ev h))]

/-- C3 counterexample: when the caller's stop signal is delivered before
either the connect callback or the connection timeout, `TailStagingLogs`
takes the `else` arm of the stop case and returns at once: the loop exits
(the deferred done fires) but `startWait.Done` was never called, so the
"ready" signal fires zero times, not exactly once. -/
theorem logTailer_stop_first_counterexample :
    (TailStagingLogs [TailEv.stop]).readyCount = 0 ∧
    (TailStagingLogs [TailEv.stop]).readyCount ≠ 1 ∧
    (TailStagingLogs [TailEv.stop]).doneCount = 1 := by
  decide

/-- C3 (amended): the "ready" signal fires exactly once when the connect
callback wins the race (and the transport never reconnects), always
exactly once when the connection timeout wins (a late connect callback is
guarded by the `StoppedTrying` status), and exactly once when a stream
error arrives first (with no late connect callback); but when the
caller's stop signal arrives before connect or timeout, the tailer exits
without signalling "ready" at all (zero times, not once). -/
theorem logTailer_ready_orderings (rest : List TailEv) :
    (TailEv.connect ∉ rest →
      (TailStagingLogs (TailEv.connect :: rest)).readyCount = 1) ∧
    ((TailStagingLogs (TailEv.timerFires :: rest)).readyCount = 1) ∧
    (∀ e, TailEv.connect ∉ rest →
      (TailStagingLogs (TailEv.errEv e true :: rest)).readyCount = 1) ∧
    (TailEv.connect ∉ rest →
      (TailStagingLogs (TailEv.stop :: rest)).readyCount = 0) := by
  refine ⟨?_, ?_, ?_, ?_⟩
  · intro hmem
    unfold TailStagingLogs
    rw [List.foldl_cons]
    have h1 : tailStep initTailState TailEv.connect
        = ⟨.ConnectionWasEstablished, 1, 0, false, []⟩ := rfl
    rw [h1, foldl_ready_stable rest _ (by simp) hmem]
  · unfold TailStagingLogs
    rw [List.foldl_cons]
    have h1 : tailStep initTailState TailEv.timerFires
        = ⟨.StoppedTrying, 1, 1, true,
           [Ev.warn "timeout connecting to log server, no log will be shown"]⟩ := rfl
    rw [h1, foldl_exited_stopped rest _ rfl rfl]
  · intro e hmem
    unfold TailStagingLogs
    rw [List.foldl_cons]
    have h1 : tailStep initTailState (TailEv.errEv e true)
        = ⟨.NoConnection, 1, 1, true,
           [Ev.warn "Warning: error tailing logs", Ev.say e]⟩ := rfl
    rw [h1, foldl_exited rest _ rfl hmem]
  · intro hmem
    unfold TailStagingLogs
    rw [List.foldl_cons]
    have h1 : tailStep initTailState TailEv.stop
        = ⟨.NoConnection, 0, 1, true, []⟩ := rfl
    rw [h1, foldl_exited rest _ rfl hmem]

/-- Witness for the amended C3 with empty continuations: connect-first
gives one ready signal, stop-first gives zero. -/
theorem logTailer_ready_orderings_witness :
    (TailStagingLogs [TailEv.connect]).readyCount = 1 ∧
    (TailStagingLogs [TailEv.timerFires]).readyCount = 1 ∧
    (TailStagingLogs [TailEv.errEv "boom" true]).readyCount = 1 ∧
    (TailStagingLogs [TailEv.stop]).readyCount = 0 :=
  ⟨(logTailer_ready_orderings []).1 (by decide),
   (logTailer_ready_orderings []).2.1,
   (logTailer_ready_orderings []).2.2.1 "boom" (by decide),
   (logTailer_ready_orderings []).2.2.2 (by decide)⟩

/-- C1 (code evidence): `WatchStaging` does NOT perform the tailer
shutdown handshake on its two early error returns.  When the start
operation fails, and likewise when the staging poll surfaces a fetch
error, the function returns with the error while its trace contains no
`stopChan` send and no wait on the tailer's done group — the background
log task is left running, contradicting the stated invariant that every
exit path first signals stop and awaits done. -/
theorem watchStaging_error_paths_skip_drain :
    ((WatchStaging envStartFails cfgTwoMinutes appPending).err
        = some "start op failed" ∧
      Ev.signalStop ∉ (WatchStaging envStartFails cfgTwoMinutes appPending).trace ∧
      Ev.awaitDone ∉ (WatchStaging envStartFails cfgTwoMinutes appPending).trace) ∧
    ((WatchStaging envStageFetchFails cfgTwoMinutes appPending).err
        = some "fetch app failed" ∧
      Ev.signalStop ∉ (WatchStaging envStageFetchFails cfgTwoMinutes appPending).trace ∧
      Ev.awaitDone ∉ (WatchStaging envStageFetchFails cfgTwoMinutes appPending).trace) := by
  decide

/-- C8: an application already in started state makes `ApplicationStart`
emit the warning and return the zero application with a nil error at
once: no tailer launch, no ready handshake, no staging fetch and no
instance fetch appear in its trace. -/
theorem applicationStart_already_started (env : StartEnv) (cfg : Config)
    (app : Application) (h : app.state = "started") :
    ApplicationStart env cfg app
      = ⟨zeroApp, none, [Ev.say ("App " ++ app.name ++ " is already started")]⟩ ∧
    Ev.launchTailer ∉ (ApplicationStart env cfg app).trace ∧
    Ev.awaitReady ∉ (ApplicationStart env cfg app).trace ∧
    Ev.fetchApp ∉ (ApplicationStart env cfg app).trace ∧
    Ev.fetchInstances ∉ (ApplicationStart env cfg app).trace := by
  have heq : ApplicationStart env cfg app
      = ⟨zeroApp, none, [Ev.say ("App " ++ app.name ++ " is already started")]⟩ := by
    unfold ApplicationStart
    rw [if_pos h]
  refine ⟨heq, ?_, ?_, ?_, ?_⟩ <;> rw [heq] <;> simp

/-- Witness for C8 at a concrete started application. -/
theorem applicationStart_already_started_witness :
    ApplicationStart envStagePending cfgTwoMinutes appStarted
      = ⟨zeroApp, none, [Ev.say ("App " ++ appStarted.name ++ " is already started")]⟩ :=
  (applicationStart_already_started envStagePending cfgTwoMinutes appStarted rfl).1

/-- C10: when the start operation succeeds and the stage poller reports
the non-error timeout outcome `(false, nil)`, `WatchStaging` performs the
full tailer shutdown — the stop signal immediately followed by the wait
on the tailer's done group appears in its trace — and then returns the
zero application and an error naming the app and the staging timeout in
minutes. -/
theorem watchStaging_staging_timeout (env : StartEnv) (cfg : Config)
    (app u : Application)
    (hstart : env.startOp app = (u, none))
    (herr : (waitForInstancesToStage env.getApp cfg.stagingTimeout
        cfg.pingerThrottle u).err = none)
    (hstaged : (waitForInstancesToStage env.getApp cfg.stagingTimeout
        cfg.pingerThrottle u).staged = false) :
    (WatchStaging env cfg app).app = zeroApp ∧
    (WatchStaging env cfg app).err
      = some (stageTimeoutMsg app.name cfg.stagingTimeout) ∧
    List.IsInfix [Ev.signalStop, Ev.awaitDone] (WatchStaging env cfg app).trace := by
  have heq : WatchStaging env cfg app
      = ⟨zeroApp, some (stageTimeoutMsg app.name cfg.stagingTimeout),
         [Ev.launchTailer, Ev.awaitReady] ++ [Ev.startOp] ++
           (waitForInstancesToStage env.getApp cfg.stagingTimeout
             cfg.pingerThrottle u).trace ++
           [Ev.signalStop, Ev.awaitDone, Ev.say ""]⟩ := by
    unfold WatchStaging
    simp only [hstart, herr, hstaged]
    simp
  rw [heq]
  refine ⟨rfl, rfl, ?_⟩
  refine ⟨[Ev.launchTailer, Ev.awaitReady] ++ [Ev.startOp] ++
    (waitForInstancesToStage env.getApp cfg.stagingTimeout
      cfg.pingerThrottle u).trace, [Ev.say ""], ?_⟩
  simp

/-- Witness for C10: staging stays pending for the whole two-minute
deadline; the run drains the tailer and reports the two-minute timeout. -/
theorem watchStaging_staging_timeout_witness :
    (WatchStaging envStagePending cfgTwoMinutes appPending).err
      = some (stageTimeoutMsg appPending.name cfgTwoMinutes.stagingTimeout) ∧
    List.IsInfix [Ev.signalStop, Ev.awaitDone]
      (WatchStaging envStagePending cfgTwoMinutes appPending).trace :=
  ⟨(watchStaging_staging_timeout envStagePending cfgTwoMinutes appPending appPending
      rfl (by decide) (by decide)).2.1,
   (watchStaging_staging_timeout envStagePending cfgTwoMinutes appPending appPending
      rfl (by decide) (by decide)).2.2⟩

end CFStart
